import Mathlib

/-
Verification development for the adgen_agent repository.

The definitions below are a shallow embedding of the script extractor
(src/components/ScriptPreview.tsx, parseScript and constructPrompt), the
file-upload staging logic (src/App.tsx, handleFileUpload) and the
generation status flow (src/App.tsx, ensureAuth / handleGenerateVideo /
handleGenerateImage / handleEditImage).  Strings are modeled through their
underlying character lists; the JavaScript regular expressions used by the
source are modeled by dedicated character-level matchers whose behavior
(anchoring, greediness, backtracking, case folding) follows the concrete
patterns of the source.  Case folding is modeled for the ASCII range, which
covers every keyword the source matches on.
-/

namespace AdGen

/-- Whitespace class of the JavaScript regex escape backslash-s, as used by
the patterns in parseScript (space, tab, line feed, carriage return,
vertical tab, form feed and the Unicode space characters). -/
def isJsWs (c : Char) : Bool :=
  c = ' ' || c = '\t' || c = '\n' || c = '\r' ||
  c = Char.ofNat 11 || c = Char.ofNat 12 ||
  c = Char.ofNat 0xa0 || c = Char.ofNat 0x1680 ||
  (0x2000 ≤ c.toNat && c.toNat ≤ 0x200a) ||
  c = Char.ofNat 0x2028 || c = Char.ofNat 0x2029 || c = Char.ofNat 0x202f ||
  c = Char.ofNat 0x205f || c = Char.ofNat 0x3000 || c = Char.ofNat 0xfeff

/-- Line terminators of JavaScript regexes: these end a line for the dollar
anchor, start a line for the caret anchor in multiline mode, and are the
characters a dot does not match. -/
def isLineTerm (c : Char) : Bool :=
  c = '\n' || c = '\r' || c = Char.ofNat 0x2028 || c = Char.ofNat 0x2029

/-- Model of md.replace with the CRLF pattern and the global flag in
ScriptPreview.tsx line 60: every CRLF pair becomes a single LF,
scanning left to right without overlap. -/
def normalizeNewlines : List Char → List Char
  | '\r' :: '\n' :: rest => '\n' :: normalizeNewlines rest
  | c :: rest => c :: normalizeNewlines rest
  | [] => []

/-- Case-insensitive literal match: strips the given lowercase keyword from
the front of the text, comparing through ASCII lowercasing, and returns the
remainder on success. -/
def stripCI : List Char → List Char → Option (List Char)
  | [], cs => some cs
  | _ :: _, [] => none
  | k :: ks, c :: cs => if c.toLower = k then stripCI ks cs else none

/-- Length of the maximal dot-star run: number of characters before the
first line terminator (or end of text). -/
def lineLen : List Char → Nat
  | [] => 0
  | c :: cs => if isLineTerm c then 0 else lineLen cs + 1

/-- Keyword matcher for the Hook heading regex of ScriptPreview.tsx line 72:
consumes the literal Hook case-insensitively, returning consumed length and
remainder. -/
def hookKw (cs : List Char) : Option (Nat × List Char) :=
  (stripCI ['h', 'o', 'o', 'k'] cs).map (fun r => (4, r))

/-- Keyword matcher for the Body heading regex of ScriptPreview.tsx line 73. -/
def bodyKw (cs : List Char) : Option (Nat × List Char) :=
  (stripCI ['b', 'o', 'd', 'y'] cs).map (fun r => (4, r))

/-- Keyword matcher for the CTA heading regex of ScriptPreview.tsx line 74:
the alternation first tries the literal CTA, then Call-to-Action with
arbitrary whitespace between the three words, all case-insensitively. -/
def ctaKw (cs : List Char) : Option (Nat × List Char) :=
  match stripCI ['c', 't', 'a'] cs with
  | some r => some (3, r)
  | none =>
    match stripCI ['c', 'a', 'l', 'l'] cs with
    | none => none
    | some r1 =>
      match stripCI ['t', 'o'] (r1.dropWhile isJsWs) with
      | none => none
      | some r3 =>
        match stripCI ['a', 'c', 't', 'i', 'o', 'n'] (r3.dropWhile isJsWs) with
        | none => none
        | some r5 =>
          some (4 + (r1.takeWhile isJsWs).length + 2 +
                (r3.takeWhile isJsWs).length + 6, r5)

/-- Attempted match, at one position, of a section heading regex of
ScriptPreview.tsx lines 71 to 75: two hash marks, then greedy whitespace,
then the keyword, then the rest of the line.  Returns the match length.
The whitespace star never backtracks because every keyword starts with a
non-whitespace character. -/
def headingMatchAt (kw : List Char → Option (Nat × List Char)) : List Char → Option Nat
  | '#' :: '#' :: rest =>
    match kw (rest.dropWhile isJsWs) with
    | some (k, rest2) =>
      some (2 + (rest.takeWhile isJsWs).length + k + lineLen rest2)
    | none => none
  | _ => none

/-- First match of a line-anchored pattern, in multiline mode: the matcher
is attempted at position zero and after every line terminator, and the
first successful position wins, as String.prototype.match does for the
anchored regexes of parseScript. -/
def findFromLineStarts {α : Type} (matchAt : List Char → Option α) :
    Nat → Bool → List Char → Option (Nat × α)
  | _, _, [] => none
  | i, atLineStart, c :: rest =>
    match (if atLineStart then matchAt (c :: rest) else none) with
    | some a => some (i, a)
    | none => findFromLineStarts matchAt (i + 1) (isLineTerm c) rest

/-- First occurrence of one of the three section heading regexes, as index
and match length, mirroring the map over headers in ScriptPreview.tsx
lines 78 to 84. -/
def findHeader (kw : List Char → Option (Nat × List Char)) (cs : List Char) :
    Option (Nat × Nat) :=
  findFromLineStarts (headingMatchAt kw) 0 true cs

/-- Last character of a list that is not a line terminator, used to model
the backtracking of the greedy whitespace quantifiers in the title and
style regexes when the rest of the pattern would otherwise fail at end of
input. -/
def lastNonLineTerm : List Char → Option Char
  | [] => none
  | c :: cs =>
    match lastNonLineTerm cs with
    | some d => some d
    | none => if isLineTerm c then none else some c

/-- Attempted match, at one position, of the title regex of
ScriptPreview.tsx line 63: a hash mark, one or more whitespace characters
(greedy), then the captured dot-plus to the line end.  When the whitespace
run reaches end of input the quantifier backtracks, so the capture becomes
the last non-terminator whitespace character beyond the first. -/
def titleMatchAt : List Char → Option (List Char)
  | '#' :: rest =>
    let run := rest.takeWhile isJsWs
    let after := rest.dropWhile isJsWs
    if run.isEmpty then none
    else
      match after with
      | _ :: _ => some (after.takeWhile (fun c => !(isLineTerm c)))
      | [] => (lastNonLineTerm (run.drop 1)).map (fun c => [c])
  | _ => none

/-- Capture of the title regex over the whole document: first line starting
with a single hash, per ScriptPreview.tsx line 63. -/
def findTitle (cs : List Char) : Option (List Char) :=
  (findFromLineStarts titleMatchAt 0 true cs).map (fun p => p.2)

/-- Optional bold or underscore marker of the style regex of
ScriptPreview.tsx line 67: the alternation of two asterisks or two
underscores. -/
def stripBold : List Char → Option (List Char)
  | '*' :: '*' :: r => some r
  | '_' :: '_' :: r => some r
  | _ => none

/-- Capture of the tail of the style regex: greedy whitespace star followed
by the captured dot-plus to the line end, with the backtracking of the
whitespace star when the run reaches end of input. -/
def styleCapture (r : List Char) : Option (List Char) :=
  match r.dropWhile isJsWs with
  | c :: rest => some ((c :: rest).takeWhile (fun d => !(isLineTerm d)))
  | [] => (lastNonLineTerm (r.takeWhile isJsWs)).map (fun c => [c])

/-- Attempted match, at one position, of the style regex of
ScriptPreview.tsx line 67: optional bold marker, the literal Style with a
colon case-insensitively, optional closing bold marker, whitespace, then
the captured rest of the line.  When taking the optional closing marker
leaves nothing for the capture, the engine backtracks and retries without
it. -/
def styleMatchAt (cs : List Char) : Option (List Char) :=
  let afterOpen :=
    match stripBold cs with
    | some r => r
    | none => cs
  match stripCI ['s', 't', 'y', 'l', 'e', ':'] afterOpen with
  | none => none
  | some rem =>
    match stripBold rem with
    | some rem2 =>
      match styleCapture rem2 with
      | some cap => some cap
      | none => styleCapture rem
    | none => styleCapture rem

/-- Capture of the style regex over the whole document, per
ScriptPreview.tsx line 67. -/
def findStyle (cs : List Char) : Option (List Char) :=
  (findFromLineStarts styleMatchAt 0 true cs).map (fun p => p.2)

/-- Model of String.prototype.substring with two indices: both arguments
are clamped to the text length and swapped when out of order. -/
def jsSubstring (cs : List Char) (a b : Nat) : List Char :=
  let a2 := min a cs.length
  let b2 := min b cs.length
  (cs.drop (min a2 b2)).take (max a2 b2 - min a2 b2)

/-- Model of String.prototype.trim: strips whitespace and line terminators
from both ends. -/
def jsTrim (cs : List Char) : List Char :=
  ((cs.dropWhile isJsWs).reverse.dropWhile isJsWs).reverse

/-- Keys of the three script sections of ScriptPreview.tsx lines 71 to 75. -/
inductive SectionKey
  | hook
  | body
  | cta
deriving DecidableEq

/-- Structured script record of src/types.ts. -/
structure ScriptData where
  title : String
  visualStyle : String
  hook : String
  body : String
  cta : String
deriving DecidableEq

/-- Insertion into a list sorted by header index, modeling the sort by
index comparator of ScriptPreview.tsx line 84.  The three headers can
never share an index, so tie order is immaterial. -/
def insertByIndex (x : SectionKey × Nat × Nat) :
    List (SectionKey × Nat × Nat) → List (SectionKey × Nat × Nat)
  | [] => [x]
  | y :: ys => if x.2.1 < y.2.1 then x :: y :: ys else y :: insertByIndex x ys

/-- Headers actually present in the text, each as key, match index and
match length, sorted by index, per ScriptPreview.tsx lines 78 to 84. -/
def foundHeaders (cs : List Char) : List (SectionKey × Nat × Nat) :=
  ([(findHeader hookKw cs).map (fun p => (SectionKey.hook, p)),
    (findHeader bodyKw cs).map (fun p => (SectionKey.body, p)),
    (findHeader ctaKw cs).map (fun p => (SectionKey.cta, p))].filterMap id).foldl
    (fun acc x => insertByIndex x acc) []

/-- End position of the current section: the index of the next found
header, or the document length for the last one, per ScriptPreview.tsx
lines 97 to 99. -/
def nextStop (cs : List Char) : List (SectionKey × Nat × Nat) → Nat
  | (_, idx2, _) :: _ => idx2
  | [] => cs.length

/-- The forEach loop of ScriptPreview.tsx lines 96 to 103: each found
header, in sorted order, assigns to its key the trimmed substring running
from the end of its match to the start of the next found header. -/
def fillSections (cs : List Char) :
    List (SectionKey × Nat × Nat) → ScriptData → ScriptData
  | [], r => r
  | (k, idx, len) :: rest, r =>
    let content := String.mk (jsTrim (jsSubstring cs (idx + len) (nextStop cs rest)))
    let r2 :=
      match k with
      | SectionKey.hook => { r with hook := content }
      | SectionKey.body => { r with body := content }
      | SectionKey.cta => { r with cta := content }
    fillSections cs rest r2

/-- Model of parseScript of ScriptPreview.tsx lines 56 to 106: an empty
document is rejected, newlines are normalized, title and style are
extracted with defaults, and unless no section heading is found the record
is assembled by slicing between the found headings. -/
def parseScript (md : String) : Option ScriptData :=
  if md = "" then none
  else
    let cs := normalizeNewlines md.data
    let title :=
      match findTitle cs with
      | some cap => String.mk (jsTrim cap)
      | none => "Untitled Video"
    let visualStyle :=
      match findStyle cs with
      | some cap => String.mk (jsTrim cap)
      | none => "Cinematic, high contrast"
    let found := foundHeaders cs
    if found.isEmpty then none
    else
      some (fillSections cs found
        { title := title, visualStyle := visualStyle, hook := "", body := "", cta := "" })

/-- Labeled prompt fragments accumulated by the push calls of
constructPrompt, ScriptPreview.tsx lines 146 to 151: one labeled fragment
for each truthy (non-empty) field, in the fixed order style, hook, body,
cta. -/
def promptParts (s : ScriptData) : List String :=
  (if s.visualStyle = "" then [] else ["Style: " ++ s.visualStyle]) ++
  (if s.hook = "" then [] else ["Scene 1 (Hook): " ++ s.hook]) ++
  (if s.body = "" then [] else ["Scene 2 (Body): " ++ s.body]) ++
  (if s.cta = "" then [] else ["Scene 3 (CTA): " ++ s.cta])

/-- Model of constructPrompt of ScriptPreview.tsx lines 144 to 159: the
fragments are joined with a period separator, except that a single
fragment with an empty hook falls back to the title followed by the
style. -/
def constructPrompt (s : ScriptData) : String :=
  let parts := promptParts s
  if parts.length = 1 ∧ s.hook = "" then s.title ++ ". " ++ s.visualStyle
  else String.intercalate ". " parts

/-- Specification-side description of the labeled fragments: a filter of
the four labeled fields keeping the non-empty ones in the fixed order. -/
def labeledFragments (s : ScriptData) : List String :=
  [("Style: ", s.visualStyle), ("Scene 1 (Hook): ", s.hook),
   ("Scene 2 (Body): ", s.body), ("Scene 3 (CTA): ", s.cta)].filterMap
    (fun p => if p.2 = "" then none else some (p.1 ++ p.2))

/-- Media kind of an attachment, per the Attachment interface of
src/types.ts. -/
inductive MediaType
  | image
  | video
deriving DecidableEq

/-- Attachment record of src/types.ts. -/
structure Attachment where
  type : MediaType
  mimeType : String
  data : String
deriving DecidableEq

/-- The observable inputs of a file chosen in the upload dialog: its byte
size, its MIME type and its payload as read by the FileReader (the data
part of the base64 data URL). -/
structure JsFile where
  size : Nat
  mimeType : String
  base64Data : String
deriving DecidableEq

/-- Model of handleFileUpload of src/App.tsx lines 47 to 74, as a function
from the chosen file and the current selectedMedia state to the new
selectedMedia state: no file leaves the state alone, a file larger than
the 20 MB limit is rejected (alert, early return) leaving the state alone,
and otherwise the asynchronous FileReader callback stages the attachment,
classifying it as video exactly when its MIME type starts with the video
prefix. -/
def handleFileUpload (file : Option JsFile) (selectedMedia : Option Attachment) :
    Option Attachment :=
  match file with
  | none => selectedMedia
  | some f =>
    if f.size > 20 * 1024 * 1024 then selectedMedia
    else
      some
        { type := if f.mimeType.startsWith "video/" then MediaType.video else MediaType.image,
          mimeType := f.mimeType,
          data := f.base64Data }

/-- Generation status union of src/types.ts line 27. -/
inductive GenerationStatus
  | idle
  | checkingAuth
  | generating
  | polling
  | completed
  | error
deriving DecidableEq

/-- Outcome of the awaited checkPaidKeyAuth call inside ensureAuth: either
a boolean result, or a thrown exception. -/
inductive AuthCheckResult
  | ok (hasKey : Bool)
  | thrown
deriving DecidableEq

/-- Outcome of an awaited generation call (generateVeoVideo, generateImage
or editImage): a successful value or a thrown error message. -/
inductive CallOutcome
  | success (value : String)
  | failure (message : String)
deriving DecidableEq

/-- Observable effects of one run of ensureAuth: the sequence of statuses
it sets, its boolean return value, and whether promptPaidKeyAuth was
invoked. -/
structure AuthStepResult where
  statusTrace : List GenerationStatus
  granted : Bool
  promptCalled : Bool
deriving DecidableEq

/-- Model of ensureAuth of src/App.tsx lines 128 to 146: the status is set
to checking-auth, then the paid-key check runs.  A true result grants
access.  A false result sets the status back to idle, optionally invokes
the interactive key-selection prompt when the user confirms, and denies
access.  A thrown check is caught, logged and denies access without any
further status update. -/
def ensureAuth (check : AuthCheckResult) (userConfirms : Bool) : AuthStepResult :=
  match check with
  | AuthCheckResult.ok true =>
    { statusTrace := [GenerationStatus.checkingAuth], granted := true, promptCalled := false }
  | AuthCheckResult.ok false =>
    { statusTrace := [GenerationStatus.checkingAuth, GenerationStatus.idle],
      granted := false, promptCalled := userConfirms }
  | AuthCheckResult.thrown =>
    { statusTrace := [GenerationStatus.checkingAuth], granted := false, promptCalled := false }

/-- Model of handleGenerateVideo of src/App.tsx lines 149 to 175, as the
sequence of statuses set during one run: a denied auth check ends the run,
otherwise the status becomes generating and the awaited video call ends in
completed on success or error on a thrown failure. -/
def handleGenerateVideo (check : AuthCheckResult) (userConfirms : Bool)
    (gen : CallOutcome) : List GenerationStatus :=
  let auth := ensureAuth check userConfirms
  if !auth.granted then auth.statusTrace
  else
    auth.statusTrace ++ [GenerationStatus.generating] ++
      (match gen with
       | CallOutcome.success _ => [GenerationStatus.completed]
       | CallOutcome.failure _ => [GenerationStatus.error])

/-- Model of handleGenerateImage of src/App.tsx lines 178 to 198, which
follows the same status sequence as the video handler. -/
def handleGenerateImage (check : AuthCheckResult) (userConfirms : Bool)
    (gen : CallOutcome) : List GenerationStatus :=
  let auth := ensureAuth check userConfirms
  if !auth.granted then auth.statusTrace
  else
    auth.statusTrace ++ [GenerationStatus.generating] ++
      (match gen with
       | CallOutcome.success _ => [GenerationStatus.completed]
       | CallOutcome.failure _ => [GenerationStatus.error])

/-- Model of handleEditImage of src/App.tsx lines 201 to 220: no auth
check at all, the status goes straight to generating and then to completed
or error. -/
def handleEditImage (edit : CallOutcome) : List GenerationStatus :=
  [GenerationStatus.generating] ++
    (match edit with
     | CallOutcome.success _ => [GenerationStatus.completed]
     | CallOutcome.failure _ => [GenerationStatus.error])

/-- Per-key reading of the fillSections loop: the value a key ends up with
after the loop, starting from a default, is the trimmed slice of its last
occurrence in the header list. -/
def sliceOf (cs : List Char) (k : SectionKey) :
    List (SectionKey × Nat × Nat) → String → String
  | [], dflt => dflt
  | (k2, idx, len) :: rest, dflt =>
    let v := String.mk (jsTrim (jsSubstring cs (idx + len) (nextStop cs rest)))
    sliceOf cs k rest (if k2 = k then v else dflt)

/-- Helper: the hook field after the fillSections loop is the per-key
reading of the header list. -/
theorem fillSections_hook (cs : List Char) :
    ∀ (l : List (SectionKey × Nat × Nat)) (r : ScriptData),
      (fillSections cs l r).hook = sliceOf cs SectionKey.hook l r.hook := by
  intro l
  induction l with
  | nil => intro r; rfl
  | cons x rest ih =>
    intro r
    obtain ⟨k, idx, len⟩ := x
    cases k <;> simp [fillSections, sliceOf, ih]

/-- Helper: the body field after the fillSections loop is the per-key
reading of the header list. -/
theorem fillSections_body (cs : List Char) :
    ∀ (l : List (SectionKey × Nat × Nat)) (r : ScriptData),
      (fillSections cs l r).body = sliceOf cs SectionKey.body l r.body := by
  intro l
  induction l with
  | nil => intro r; rfl
  | cons x rest ih =>
    intro r
    obtain ⟨k, idx, len⟩ := x
    cases k <;> simp [fillSections, sliceOf, ih]

/-- Helper: the cta field after the fillSections loop is the per-key
reading of the header list. -/
theorem fillSections_cta (cs : List Char) :
    ∀ (l : List (SectionKey × Nat × Nat)) (r : ScriptData),
      (fillSections cs l r).cta = sliceOf cs SectionKey.cta l r.cta := by
  intro l
  induction l with
  | nil => intro r; rfl
  | cons x rest ih =>
    intro r
    obtain ⟨k, idx, len⟩ := x
    cases k <;> simp [fillSections, sliceOf, ih]

/-- C1: for every markdown string in which none of the three section
heading regexes (Hook, Body, CTA or Call to Action) finds a match,
parseScript returns none, regardless of any title or style line. -/
theorem c1_zero_headings_gives_none (md : String)
    (hh : findHeader hookKw (normalizeNewlines md.data) = none)
    (hb : findHeader bodyKw (normalizeNewlines md.data) = none)
    (hc : findHeader ctaKw (normalizeNewlines md.data) = none) :
    parseScript md = none := by
  unfold parseScript
  split
  · rfl
  · simp [foundHeaders, hh, hb, hc]

/-- Witness for C1 at the spec example: a document with a title line and a
style line but no section heading parses to none. -/
theorem c1_witness :
    findHeader hookKw (normalizeNewlines ("# My Video\n**Style:** bright\nSome body text").data) = none ∧
    parseScript "# My Video\n**Style:** bright\nSome body text" = none :=
  ⟨by decide, c1_zero_headings_gives_none _ (by decide) (by decide) (by decide)⟩

/-- C2: whenever parseScript succeeds, each section field is the trimmed
substring running from the end of its heading match to the index of the
next found heading (or end of document), read off the position-sorted
header list; in particular headings out of canonical order are sliced by
textual position, as on the out-of-order example. -/
theorem c2_sections_sliced_by_position :
    (∀ (md : String) (r : ScriptData), parseScript md = some r →
      r.hook = sliceOf (normalizeNewlines md.data) SectionKey.hook
          (foundHeaders (normalizeNewlines md.data)) "" ∧
      r.body = sliceOf (normalizeNewlines md.data) SectionKey.body
          (foundHeaders (normalizeNewlines md.data)) "" ∧
      r.cta = sliceOf (normalizeNewlines md.data) SectionKey.cta
          (foundHeaders (normalizeNewlines md.data)) "") ∧
    parseScript "## Body\nB text\n## Hook\nH text" =
      some { title := "Untitled Video", visualStyle := "Cinematic, high contrast",
             hook := "H text", body := "B text", cta := "" } := by
  constructor
  · intro md r h
    unfold parseScript at h
    split at h
    · exact absurd h (by simp)
    · dsimp only at h
      split at h
      · exact absurd h (by simp)
      · rw [Option.some.injEq] at h
        subst h
        exact ⟨fillSections_hook _ _ _, fillSections_body _ _ _, fillSections_cta _ _ _⟩
  · decide

/-- Witness for C2: the slicing equations instantiated on the
out-of-order example. -/
theorem c2_witness :
    parseScript "## Body\nB text\n## Hook\nH text" =
      some { title := "Untitled Video", visualStyle := "Cinematic, high contrast",
             hook := "H text", body := "B text", cta := "" } ∧
    ({ title := "Untitled Video", visualStyle := "Cinematic, high contrast",
       hook := "H text", body := "B text", cta := "" } : ScriptData).hook =
      sliceOf (normalizeNewlines ("## Body\nB text\n## Hook\nH text").data) SectionKey.hook
        (foundHeaders (normalizeNewlines ("## Body\nB text\n## Hook\nH text").data)) "" :=
  ⟨by decide, (c2_sections_sliced_by_position.1 _ _ (by decide)).1⟩

/-- Counterexample to C3 as stated: a successful video generation run
reaches completed while the status polling is never entered (the source
never sets it), and the image-edit handler leaves idle directly for
generating rather than checking-auth. -/
theorem c3_counterexample :
    handleGenerateVideo (AuthCheckResult.ok true) false (CallOutcome.success "uri") =
      [GenerationStatus.checkingAuth, GenerationStatus.generating, GenerationStatus.completed] ∧
    GenerationStatus.completed ∈
      handleGenerateVideo (AuthCheckResult.ok true) false (CallOutcome.success "uri") ∧
    GenerationStatus.polling ∉
      handleGenerateVideo (AuthCheckResult.ok true) false (CallOutcome.success "uri") ∧
    (handleEditImage (CallOutcome.success "img")).head? = some GenerationStatus.generating := by
  decide

/-- C3 (amended): the status polling is never entered by any handler; a
video generation run always starts by setting checking-auth; and the only
way a video run reaches completed is the full sequence checking-auth,
generating, completed, so completed is never reached without passing
through generating. -/
theorem c3_amended_status_flow (check : AuthCheckResult) (userConfirms : Bool)
    (gen edit : CallOutcome) :
    GenerationStatus.polling ∉ handleGenerateVideo check userConfirms gen ∧
    GenerationStatus.polling ∉ handleGenerateImage check userConfirms gen ∧
    GenerationStatus.polling ∉ handleEditImage edit ∧
    (handleGenerateVideo check userConfirms gen).head? = some GenerationStatus.checkingAuth ∧
    (GenerationStatus.completed ∈ handleGenerateVideo check userConfirms gen →
      handleGenerateVideo check userConfirms gen =
        [GenerationStatus.checkingAuth, GenerationStatus.generating,
         GenerationStatus.completed]) := by
  rcases check with b | _
  · rcases b <;> rcases gen <;> rcases edit <;>
      simp [handleGenerateVideo, handleGenerateImage, handleEditImage, ensureAuth]
  · rcases gen <;> rcases edit <;>
      simp [handleGenerateVideo, handleGenerateImage, handleEditImage, ensureAuth]

/-- Witness for C3 (amended): the completed run instantiated on a
successful environment, with the membership hypothesis discharged
concretely. -/
theorem c3_amended_witness :
    handleGenerateVideo (AuthCheckResult.ok true) true (CallOutcome.success "uri") =
      [GenerationStatus.checkingAuth, GenerationStatus.generating,
       GenerationStatus.completed] :=
  (c3_amended_status_flow (AuthCheckResult.ok true) true (CallOutcome.success "uri")
    (CallOutcome.success "uri")).2.2.2.2 (by decide)

/-- Counterexample to C4 as stated: when the paid-key check throws,
ensureAuth returns false and the run stops with only checking-auth set, so
the request does not proceed to generating. -/
theorem c4_counterexample :
    ensureAuth AuthCheckResult.thrown false =
      { statusTrace := [GenerationStatus.checkingAuth], granted := false,
        promptCalled := false } ∧
    GenerationStatus.generating ∉
      handleGenerateVideo AuthCheckResult.thrown false (CallOutcome.success "uri") := by
  decide

/-- C4 (amended): when the auth check itself throws, the failure is
swallowed (caught and logged) but treated as access denied: ensureAuth
returns false, no interactive prompt is shown, and the video run ends with
checking-auth as the only status it set, never reaching generating. -/
theorem c4_amended_thrown_check_denies (userConfirms : Bool) (gen : CallOutcome) :
    (ensureAuth AuthCheckResult.thrown userConfirms).granted = false ∧
    (ensureAuth AuthCheckResult.thrown userConfirms).promptCalled = false ∧
    handleGenerateVideo AuthCheckResult.thrown userConfirms gen =
      [GenerationStatus.checkingAuth] := by
  exact ⟨rfl, rfl, rfl⟩

/-- C5: a document with only a title and a CTA section yields the default
style, the parsed title, empty hook and body, and the CTA content. -/
theorem c5_single_section_defaults :
    parseScript "# T\n## CTA\nBuy now!" =
      some { title := "T", visualStyle := "Cinematic, high contrast",
             hook := "", body := "", cta := "Buy now!" } := by
  decide

/-- C6: heading detection matches by keyword prefix, not exact equality:
any text beginning with two hashes, a space and the word Hook matches the
hook heading regex whatever follows on the line, and the concrete document
with the heading Hooks and Loops parses with that section assigned to
hook. -/
theorem c6_heading_prefix_match :
    (∀ rest : List Char,
      headingMatchAt hookKw ('#' :: '#' :: ' ' :: 'H' :: 'o' :: 'o' :: 'k' :: rest) =
        some (7 + lineLen rest)) ∧
    parseScript "## Hooks and Loops\ncontent" =
      some { title := "Untitled Video", visualStyle := "Cinematic, high contrast",
             hook := "content", body := "", cta := "" } := by
  constructor
  · intro rest
    have hsp : isJsWs ' ' = true := by decide
    have hH : isJsWs 'H' = false := by decide
    have t1 : Char.toLower 'H' = 'h' := by decide
    have t2 : Char.toLower 'o' = 'o' := by decide
    have t3 : Char.toLower 'k' = 'k' := by decide
    simp [headingMatchAt, hookKw, stripCI, List.dropWhile_cons, List.takeWhile_cons,
      hsp, hH, t1, t2, t3]
  · decide

/-- C7: when the paid-key check returns false, the video run sets
checking-auth and then idle, ensureAuth denies access, the interactive
prompt is invoked exactly when the user confirms the dialog, and the run
never reaches generating regardless of the prompt. -/
theorem c7_auth_denied_returns_to_idle (userConfirms : Bool) (gen : CallOutcome) :
    handleGenerateVideo (AuthCheckResult.ok false) userConfirms gen =
      [GenerationStatus.checkingAuth, GenerationStatus.idle] ∧
    GenerationStatus.generating ∉
      handleGenerateVideo (AuthCheckResult.ok false) userConfirms gen ∧
    (ensureAuth (AuthCheckResult.ok false) userConfirms).granted = false ∧
    (ensureAuth (AuthCheckResult.ok false) userConfirms).promptCalled = userConfirms := by
  refine ⟨rfl, ?_, rfl, rfl⟩
  simp [handleGenerateVideo, ensureAuth]

/-- C8: parseScript is deterministic: two results obtained from the same
text are equal, there being no hidden state in the extraction. -/
theorem c8_extract_deterministic (md : String) (r1 r2 : Option ScriptData)
    (h1 : parseScript md = r1) (h2 : parseScript md = r2) : r1 = r2 := by
  rw [← h1, ← h2]

/-- Witness for C8: both calls on a concrete hook-only document produce
the same record. -/
theorem c8_witness :
    (some { title := "Untitled Video", visualStyle := "Cinematic, high contrast",
            hook := "hi", body := "", cta := "" } : Option ScriptData) =
    some { title := "Untitled Video", visualStyle := "Cinematic, high contrast",
           hook := "hi", body := "", cta := "" } :=
  c8_extract_deterministic "## Hook\nhi" _ _ (by decide) (by decide)

/-- Counterexample to C9 as stated: a script whose only non-empty fragment
field is the hook produces exactly one fragment, yet constructPrompt keeps
that fragment instead of falling back to the title-plus-style string. -/
theorem c9_counterexample :
    promptParts { title := "T", visualStyle := "", hook := "h", body := "", cta := "" } =
      ["Scene 1 (Hook): h"] ∧
    constructPrompt { title := "T", visualStyle := "", hook := "h", body := "", cta := "" } =
      "Scene 1 (Hook): h" ∧
    constructPrompt { title := "T", visualStyle := "", hook := "h", body := "", cta := "" } ≠
      "T. " := by
  decide

/-- C9 (amended): the prompt joins the non-empty labeled fragments of
style, hook, body and cta in that fixed order with a period separator, and
falls back to title plus style exactly when a single fragment would be
produced and the hook is empty; a lone hook fragment is kept as the
prompt. -/
theorem c9_amended_prompt_construction (s : ScriptData) :
    promptParts s = labeledFragments s ∧
    constructPrompt s =
      (if (labeledFragments s).length = 1 ∧ s.hook = ""
       then s.title ++ ". " ++ s.visualStyle
       else String.intercalate ". " (labeledFragments s)) := by
  have hp : promptParts s = labeledFragments s := by
    by_cases h1 : s.visualStyle = "" <;> by_cases h2 : s.hook = "" <;>
      by_cases h3 : s.body = "" <;> by_cases h4 : s.cta = "" <;>
      simp [promptParts, labeledFragments, h1, h2, h3, h4]
  exact ⟨hp, by simp only [constructPrompt, hp]⟩

/-- C10: a chosen file whose size exceeds the 20 MB limit is rejected and
the staged attachment state is left unchanged. -/
theorem c10_oversize_upload_rejected (f : JsFile) (sel : Option Attachment)
    (h : f.size > 20 * 1024 * 1024) :
    handleFileUpload (some f) sel = sel := by
  simp [handleFileUpload, h]

/-- Witness for C10: a file one byte over the limit with no staged
attachment leaves the state empty. -/
theorem c10_witness :
    (20 * 1024 * 1024 + 1 > 20 * 1024 * 1024) ∧
    handleFileUpload
      (some { size := 20 * 1024 * 1024 + 1, mimeType := "video/mp4", base64Data := "" })
      none = none :=
  ⟨by decide, c10_oversize_upload_rejected _ _ (by decide)⟩

end AdGen
